import Mathlib

/-!
Shallow embedding of the core of the wasabi x86_64 kernel
(memory-map iteration, firmware handoff, interrupt/descriptor tables,
4-level page-table construction, framebuffer drawing), together with
theorems checking the specification's claims against the code.

Machine integers (u64, usize, i64) are embedded as Nat or Int, with
explicit reduction modulo 2 ^ 64 where the Rust code relies on wrapping
semantics.  Heap allocation never fails in the model, and raw pointers
into page tables become structural children of a tree value.  Loops are
embedded with an explicit fuel argument; the fuel supplied by the
top-level wrappers is large enough that it is never exhausted on any
input the theorems speak about.
-/

namespace Wasabi

/-! ## Memory map holder and iterator (src/uefi.rs) -/

/-- Model of the memory-map holder from src/uefi.rs: only the fields read
by the iterator.  Descriptors are identified by their byte offset into
the 32 KiB buffer, so the buffer contents themselves are not modelled. -/
structure MemoryMapHolder where
  memory_map_size : Nat
  descriptor_size : Nat

/-- Mirror of the constructor of the holder (descriptor_size starts at 0,
memory_map_size starts at the 32 KiB buffer size 0x8000). -/
def MemoryMapHolder.new : MemoryMapHolder :=
  { memory_map_size := 0x8000, descriptor_size := 0 }

/-- Mirror of the iterator's next method: if the offset has reached
memory_map_size, yield nothing; otherwise yield the descriptor at the
current byte offset and advance the offset by descriptor_size.  The
result pairs the yielded descriptor offset with the new iterator
offset. -/
def MemoryMapIterator.next (m : MemoryMapHolder) (ofs : Nat) : Option (Nat × Nat) :=
  if m.memory_map_size ≤ ofs then none
  else some (ofs, ofs + m.descriptor_size)

/-- Repeatedly call next starting from the given offset, collecting the
yielded descriptor offsets.  Fuel bounds the number of calls. -/
def iterFrom (m : MemoryMapHolder) : Nat → Nat → List Nat
  | 0, _ => []
  | fuel + 1, ofs =>
    match MemoryMapIterator.next m ofs with
    | none => []
    | some (e, ofs') => e :: iterFrom m fuel ofs'

/-- The full iteration of the holder's iter method, starting at offset 0.
The fuel memory_map_size + 1 exceeds the number of yielded elements
whenever descriptor_size is positive. -/
def MemoryMapHolder.iter (m : MemoryMapHolder) : List Nat :=
  iterFrom m (m.memory_map_size + 1) 0

/-- Result of the n-th call (0-based) to next after constructing the
iterator at offset 0: threads the offset through the previous calls. -/
def nthNext (m : MemoryMapHolder) : Nat → Option (Nat × Nat)
  | 0 => MemoryMapIterator.next m 0
  | n + 1 =>
    match nthNext m n with
    | none => none
    | some (_, ofs) => MemoryMapIterator.next m ofs

/-! ## Firmware handoff loop (src/uefi.rs, exit_boot_services) -/

/-- Oracle describing the firmware's behaviour across the successive
calls made by the handoff loop: the status of the n-th get_memory_map
call, the map_key it stores into the holder, and the status of the n-th
exit_boot_services call as a function of the map_key passed to it. -/
structure BootServicesOracle where
  getStatus : Nat → Nat
  mapKey : Nat → Nat
  exitStatus : Nat → Nat → Nat

/-- Mirror of the retry loop of exit_boot_services: iteration n refreshes
the memory map (assert_eq! on the status panics on non-zero, modelled as
none), then calls the firmware's exit_boot_services with the map_key
just stored; a zero status breaks out of the loop.  The result counts
the (get_memory_map, exit_boot_services) calls made.  Fuel bounds the
number of iterations, so none also covers divergence. -/
def exitBootServicesLoop (o : BootServicesOracle) : Nat → Nat → Option (Nat × Nat)
  | 0, _ => none
  | fuel + 1, n =>
    if o.getStatus n ≠ 0 then none
    else if o.exitStatus n (o.mapKey n) = 0 then some (n + 1, n + 1)
    else exitBootServicesLoop o fuel (n + 1)

/-- The handoff loop started at iteration 0. -/
def exit_boot_services (o : BootServicesOracle) (fuel : Nat) : Option (Nat × Nat) :=
  exitBootServicesLoop o fuel 0

/-- Concrete oracle whose first exit_boot_services call fails and whose
second succeeds (map keys are arbitrary distinct values). -/
def oneFailureOracle : BootServicesOracle :=
  { getStatus := fun _ => 0
    mapKey := fun n => n + 7
    exitStatus := fun n _ => if n = 0 then 5 else 0 }

/-! ## Struct layouts (src/x86.rs, interrupt frame) -/

/-- Total byte size of a repr(C) struct given as an ordered field list of
(name, byte size) pairs; the field types involved are u64-aligned or
byte arrays, so no implicit padding arises. -/
def structSize (fs : List (String × Nat)) : Nat :=
  (fs.map Prod.snd).sum

/-- Byte offset of a named field inside an ordered field list. -/
def fieldOffset : List (String × Nat) → String → Nat
  | [], _ => 0
  | f :: fs, name => if f.1 = name then 0 else f.2 + fieldOffset fs name

/-- Field layout of GeneralRegisterContext: the 15 general-purpose
registers saved by the common interrupt prologue (all except rsp and
rip; rcx last because the stubs push it first). -/
def GeneralRegisterContext.fields : List (String × Nat) :=
  [("rax", 8), ("rdx", 8), ("rbx", 8), ("rbp", 8), ("rsi", 8), ("rdi", 8),
   ("r8", 8), ("r9", 8), ("r10", 8), ("r11", 8), ("r12", 8), ("r13", 8),
   ("r14", 8), ("r15", 8), ("rcx", 8)]

/-- Field layout of InterruptContext: the five-word hardware frame. -/
def InterruptContext.fields : List (String × Nat) :=
  [("rip", 8), ("cs", 8), ("rflags", 8), ("rsp", 8), ("ss", 8)]

/-- Field layout of InterruptInfo: fxsave64 area, explicit padding word,
saved general registers, error code, hardware frame. -/
def InterruptInfo.fields : List (String × Nat) :=
  [("fpu_context", 512), ("_dummy", 8),
   ("greg", structSize GeneralRegisterContext.fields),
   ("error_code", 8),
   ("ctx", structSize InterruptContext.fields)]

/-! ## GDT and TSS descriptor (src/x86.rs) -/

def BIT_TYPE_DATA : Nat := 2 <<< 43
def BIT_TYPE_CODE : Nat := 3 <<< 43
def BIT_PRESENT : Nat := 1 <<< 47
def BIT_CS_LONG_MODE : Nat := 1 <<< 53
def BIT_CS_READABLE : Nat := 1 <<< 41
def BIT_DS_WRITABLE : Nat := 1 <<< 41
def BIT_DPL0 : Nat := 0 <<< 45

inductive GdtAttr
  | KernelCode
  | KernelData

/-- Numeric value of a GdtAttr, as in the repr(u64) enum. -/
def GdtAttr.toNat : GdtAttr → Nat
  | .KernelCode => BIT_TYPE_CODE ||| BIT_PRESENT ||| BIT_CS_LONG_MODE ||| BIT_CS_READABLE
  | .KernelData => BIT_TYPE_DATA ||| BIT_PRESENT ||| BIT_DS_WRITABLE

structure GdtSegmentDescriptor where
  value : Nat

def GdtSegmentDescriptor.null : GdtSegmentDescriptor := ⟨0⟩

def GdtSegmentDescriptor.new (attr : GdtAttr) : GdtSegmentDescriptor := ⟨attr.toNat⟩

/-- Byte size of the repr(C, packed) TaskStateSegment64Inner:
u32, 3 u64 rsp slots, 8 u64 ist slots, 5 u16 reserved, u16 iomap base. -/
def TaskStateSegment64Inner.sizeOfBytes : Nat := 4 + 3 * 8 + 8 * 8 + 5 * 2 + 2

/-- Fields of the 16-byte TSS descriptor occupying the fourth GDT slot. -/
structure TaskStateSegment64Descriptor where
  limit_low : Nat
  base_low : Nat
  base_mid_low : Nat
  attr : Nat
  base_mid_high : Nat
  base_high : Nat
  reserved : Nat

/-- Mirror of the TSS descriptor constructor: the limit field is set to
the byte size of the TSS block (as u16), the base address is split over
four fields, and the attribute word is the literal 0b1000_0000_1000_1001. -/
def TaskStateSegment64Descriptor.new (base_addr : Nat) : TaskStateSegment64Descriptor :=
  { limit_low := TaskStateSegment64Inner.sizeOfBytes % 2 ^ 16
    base_low := base_addr % 2 ^ 16
    base_mid_low := base_addr / 2 ^ 16 % 2 ^ 8
    attr := 0b1000000010001001
    base_mid_high := base_addr / 2 ^ 24 % 2 ^ 8
    base_high := base_addr / 2 ^ 32 % 2 ^ 32
    reserved := 0 }

/-- The four logical GDT slots. -/
structure Gdt where
  null_segment : GdtSegmentDescriptor
  kernel_code_segment : GdtSegmentDescriptor
  kernel_data_segment : GdtSegmentDescriptor
  task_state_segment : TaskStateSegment64Descriptor

/-- Mirror of the GdtWrapper constructor, abstracting the heap position
of the freshly allocated TSS block as the parameter tss64_phys_addr. -/
def GdtWrapper.default (tss64_phys_addr : Nat) : Gdt :=
  { null_segment := GdtSegmentDescriptor.null
    kernel_code_segment := GdtSegmentDescriptor.new .KernelCode
    kernel_data_segment := GdtSegmentDescriptor.new .KernelData
    task_state_segment := TaskStateSegment64Descriptor.new tss64_phys_addr }

/-! ## IDT (src/x86.rs) -/

def BIT_FLAGS_INTGATE : Nat := 0b00001110
def BIT_FLAGS_PRESENT : Nat := 0b10000000
def BIT_FLAGS_DPL0 : Nat := 0 <<< 5
def BIT_FLAGS_DPL3 : Nat := 3 <<< 5

inductive IdtAttr
  | NotPresent
  | IntGateDPL0
  | IntGateDPL3
deriving DecidableEq

/-- Numeric value of an IdtAttr, as in the repr(u8) enum. -/
def IdtAttr.toNat : IdtAttr → Nat
  | .NotPresent => 0
  | .IntGateDPL0 => BIT_FLAGS_INTGATE ||| BIT_FLAGS_PRESENT ||| BIT_FLAGS_DPL0
  | .IntGateDPL3 => BIT_FLAGS_INTGATE ||| BIT_FLAGS_PRESENT ||| BIT_FLAGS_DPL3

/-- The assembly entry stubs an IDT gate can point at.  Function pointers
are abstracted to which stub they denote; the stubs are distinct labels
in the source, matching the distinct constructors here. -/
inductive IdtHandler
  | interrupt_entrypoint3
  | interrupt_entrypoint6
  | interrupt_entrypoint8
  | interrupt_entrypoint13
  | interrupt_entrypoint14
  | interrupt_entrypoint32
  | int_handler_unimplemented
deriving DecidableEq

/-- One IDT gate.  The three offset fields of the packed struct are
represented by the abstract handler they are split from. -/
structure IdtDescriptor where
  segment_selector : Nat
  ist_index : Nat
  attr : IdtAttr
  handler : IdtHandler
deriving DecidableEq

def IdtDescriptor.new (segment_selector ist_index : Nat) (attr : IdtAttr)
    (handler : IdtHandler) : IdtDescriptor :=
  { segment_selector := segment_selector, ist_index := ist_index, attr := attr,
    handler := handler }

/-- Mirror of the IDT constructor: 256 gates initialised to the
unimplemented-trap stub at IST 1 / DPL0, then the six handled vectors
overwritten (vector 3 at DPL3, vector 8 on IST 2). -/
def Idt.new (segment_selector : Nat) : List IdtDescriptor :=
  ((((((List.replicate 256
      (IdtDescriptor.new segment_selector 1 .IntGateDPL0 .int_handler_unimplemented)).set 3
      (IdtDescriptor.new segment_selector 1 .IntGateDPL3 .interrupt_entrypoint3)).set 6
      (IdtDescriptor.new segment_selector 1 .IntGateDPL0 .interrupt_entrypoint6)).set 8
      (IdtDescriptor.new segment_selector 2 .IntGateDPL0 .interrupt_entrypoint8)).set 13
      (IdtDescriptor.new segment_selector 1 .IntGateDPL0 .interrupt_entrypoint13)).set 14
      (IdtDescriptor.new segment_selector 1 .IntGateDPL0 .interrupt_entrypoint14)).set 32
      (IdtDescriptor.new segment_selector 1 .IntGateDPL0 .interrupt_entrypoint32)

/-- Default element used when reading a gate out of the table. -/
def Idt.defaultGate : IdtDescriptor :=
  IdtDescriptor.new 0 0 .NotPresent .int_handler_unimplemented

/-- The gate the source installs at vector v. -/
def Idt.expectedHandler (v : Nat) : IdtHandler :=
  if v = 3 then .interrupt_entrypoint3
  else if v = 6 then .interrupt_entrypoint6
  else if v = 8 then .interrupt_entrypoint8
  else if v = 13 then .interrupt_entrypoint13
  else if v = 14 then .interrupt_entrypoint14
  else if v = 32 then .interrupt_entrypoint32
  else .int_handler_unimplemented

/-- Per-vector property checked for the IDT claim: selector, handler
binding, IST index, and the attribute byte's gate type, presence and
DPL bits. -/
def idtGateSpec (sel v : Nat) : Prop :=
  ((Idt.new sel).getD v Idt.defaultGate).segment_selector = sel ∧
  ((Idt.new sel).getD v Idt.defaultGate).handler = Idt.expectedHandler v ∧
  ((Idt.new sel).getD v Idt.defaultGate).ist_index = (if v = 8 then 2 else 1) ∧
  ((Idt.new sel).getD v Idt.defaultGate).attr.toNat % 16 = 14 ∧
  ((Idt.new sel).getD v Idt.defaultGate).attr.toNat / 128 = 1 ∧
  ((Idt.new sel).getD v Idt.defaultGate).attr.toNat / 32 % 4 = (if v = 3 then 3 else 0)

/-! ## Bitmap drawing (src/main.rs) -/

/-- Model of a Bitmap trait object: the geometry accessors and the pixel
buffer, the latter as a map from the pixel slot index
y * pixels_per_line + x (the source multiplies this by 4 bytes per pixel
to form the byte address of the u32 pixel) to the stored colour. -/
structure Bitmap where
  width : Int
  height : Int
  pixels_per_line : Int
  buf : Int → Nat

/-- Mirror of is_in_x_range. -/
def Bitmap.is_in_x_range (b : Bitmap) (px : Int) : Prop :=
  0 ≤ px ∧ px < min b.width b.pixels_per_line

/-- Mirror of is_in_y_range. -/
def Bitmap.is_in_y_range (b : Bitmap) (py : Int) : Prop :=
  0 ≤ py ∧ py < b.height

instance (b : Bitmap) (px : Int) : Decidable (b.is_in_x_range px) :=
  inferInstanceAs (Decidable (_ ∧ _))

instance (b : Bitmap) (py : Int) : Decidable (b.is_in_y_range py) :=
  inferInstanceAs (Decidable (_ ∧ _))

/-- Mirror of pixel_at_mut: the checked pixel lookup, returning the
pixel slot index when both range checks pass. -/
def Bitmap.pixel_at_mut (b : Bitmap) (x y : Int) : Option Int :=
  if b.is_in_x_range x ∧ b.is_in_y_range y then
    some (y * b.pixels_per_line + x)
  else
    none

/-- Mirror of draw_point: write the colour through the checked lookup,
or return the out-of-range error as a value, leaving the buffer as it
was. -/
def draw_point (b : Bitmap) (color : Nat) (x y : Int) : Bitmap × Except String Unit :=
  match b.pixel_at_mut x y with
  | some i => ({ b with buf := Function.update b.buf i color }, .ok ())
  | none => (b, .error "Out of Range")

/-! ## Page tables (src/x86.rs) -/

def PAGE_SIZE : Nat := 4096

/-- Modulus of the u64 arithmetic used by the page-table code. -/
def U64 : Nat := 2 ^ 64

/-- Wrapping u64 addition. -/
def add64 (a b : Nat) : Nat := (a + b) % U64

/-- Wrapping u64 subtraction. -/
def sub64 (a b : Nat) : Nat := (a + (U64 - b % U64)) % U64

inductive PageAttr
  | NotPresent
  | ReadWriteKernel
  | ReadWriteIo
deriving DecidableEq

/-- Numeric value of a PageAttr (attr as u64): Present = 1, Writable = 2,
WriteThrough = 8, CacheDisable = 16. -/
def PageAttr.toNat : PageAttr → Nat
  | .NotPresent => 0
  | .ReadWriteKernel => 1 ||| 2
  | .ReadWriteIo => 1 ||| 2 ||| 8 ||| 16

/-- Mirror of calc_index with index_shift () = (LEVEL - 1) * 9 + 12:
the 9-bit table index of an address at the given level. -/
def calc_index (level addr : Nat) : Nat :=
  addr / 2 ^ ((level - 1) * 9 + 12) % 512

/-- A level-1 table: 512 leaf entries holding raw u64 values (index out
of range never arises because indices are always taken mod 512). -/
structure PT where
  entry : Nat → Nat

/-- A level-2 table: entries are either non-present or carry their child
level-1 table (the pointer stored in a present entry is replaced by the
child value itself). -/
structure PD where
  entry : Nat → Option PT

/-- A level-3 table. -/
structure PDPT where
  entry : Nat → Option PD

/-- The root level-4 table. -/
structure PML4 where
  entry : Nat → Option PDPT

/-- A zeroed level-1 table, as produced by populate. -/
def PT.empty : PT := ⟨fun _ => 0⟩

def PD.empty : PD := ⟨fun _ => none⟩

def PDPT.empty : PDPT := ⟨fun _ => none⟩

/-- A zeroed root table, as produced by the PML4 constructor. -/
def PML4.empty : PML4 := ⟨fun _ => none⟩

def PT.set (t : PT) (i v : Nat) : PT := ⟨Function.update t.entry i v⟩

def PD.set (t : PD) (i : Nat) (c : PT) : PD := ⟨Function.update t.entry i (some c)⟩

def PDPT.set (t : PDPT) (i : Nat) (c : PD) : PDPT := ⟨Function.update t.entry i (some c)⟩

def PML4.set (t : PML4) (i : Nat) (c : PDPT) : PML4 := ⟨Function.update t.entry i (some c)⟩

/-- Mirror of entry[i].ensure_populated()?.table_mut()?: return the
present child, or populate the entry with a zeroed child table first.
Allocation cannot fail in the model, so no error case remains. -/
def PD.ensure_populated (t : PD) (i : Nat) : PT × PD :=
  match t.entry i with
  | some c => (c, t)
  | none => (PT.empty, t.set i PT.empty)

def PDPT.ensure_populated (t : PDPT) (i : Nat) : PD × PDPT :=
  match t.entry i with
  | some c => (c, t)
  | none => (PD.empty, t.set i PD.empty)

def PML4.ensure_populated (t : PML4) (i : Nat) : PDPT × PML4 :=
  match t.entry i with
  | some c => (c, t)
  | none => (PDPT.empty, t.set i PDPT.empty)

/-- Mirror of Entry::set_page on a leaf entry holding value: refuse a
physical address with any of its low 12 bits set (ATTR_MASK = 0xFFF),
leaving the entry untouched; otherwise store phys | attr. -/
def Entry.set_page (value phys : Nat) (attr : PageAttr) : Nat × Except String Unit :=
  if phys % 4096 ≠ 0 then (value, .error "phys is not aligned")
  else (phys ||| attr.toNat, .ok ())

/-- Innermost loop of create_mapping: write consecutive level-1 entries,
advancing addr by one page, until the level-1 index would overflow or
addr reaches virt_end.  Returns the updated table, the final addr, and
the index of the last entry written. -/
def mapLoop1 (t : PT) (addr virt_start virt_end phys : Nat) (attr : PageAttr) :
    Nat → Except String (PT × Nat × Nat)
  | 0 => .error "fuel exhausted"
  | fuel + 1 =>
    let index := calc_index 1 addr
    let phys_addr := sub64 (add64 phys addr) virt_start
    match Entry.set_page (t.entry index) phys_addr attr with
    | (_, .error e) => .error e
    | (v, .ok _) =>
      let t' := t.set index v
      let addr' := add64 addr PAGE_SIZE
      if 512 ≤ index + 1 ∨ virt_end ≤ addr' then .ok (t', addr', index)
      else mapLoop1 t' addr' virt_start virt_end phys attr fuel

/-- Level-2 loop of create_mapping: descend into (and write back) the
level-1 child for the current index, then continue with the next index
unless the level-2 index would overflow or addr reached virt_end. -/
def mapLoop2 (t : PD) (addr virt_start virt_end phys : Nat) (attr : PageAttr) :
    Nat → Except String (PD × Nat × Nat)
  | 0 => .error "fuel exhausted"
  | fuel + 1 =>
    let index := calc_index 2 addr
    let ct := t.ensure_populated index
    match mapLoop1 ct.1 addr virt_start virt_end phys attr fuel with
    | .error e => .error e
    | .ok (c', addr', _) =>
      let t' := ct.2.set index c'
      if 512 ≤ index + 1 ∨ virt_end ≤ addr' then .ok (t', addr', index)
      else mapLoop2 t' addr' virt_start virt_end phys attr fuel

/-- Level-3 loop of create_mapping. -/
def mapLoop3 (t : PDPT) (addr virt_start virt_end phys : Nat) (attr : PageAttr) :
    Nat → Except String (PDPT × Nat × Nat)
  | 0 => .error "fuel exhausted"
  | fuel + 1 =>
    let index := calc_index 3 addr
    let ct := t.ensure_populated index
    match mapLoop2 ct.1 addr virt_start virt_end phys attr fuel with
    | .error e => .error e
    | .ok (c', addr', _) =>
      let t' := ct.2.set index c'
      if 512 ≤ index + 1 ∨ virt_end ≤ addr' then .ok (t', addr', index)
      else mapLoop3 t' addr' virt_start virt_end phys attr fuel

/-- Outermost (level-4) loop of create_mapping. -/
def mapLoop4 (t : PML4) (addr virt_start virt_end phys : Nat) (attr : PageAttr) :
    Nat → Except String (PML4 × Nat × Nat)
  | 0 => .error "fuel exhausted"
  | fuel + 1 =>
    let index := calc_index 4 addr
    let ct := t.ensure_populated index
    match mapLoop3 ct.1 addr virt_start virt_end phys attr fuel with
    | .error e => .error e
    | .ok (c', addr', _) =>
      let t' := ct.2.set index c'
      if 512 ≤ index + 1 ∨ virt_end ≤ addr' then .ok (t', addr', index)
      else mapLoop4 t' addr' virt_start virt_end phys attr fuel

/-- Mirror of PML4::create_mapping.  The fuel 2 ^ 64 + 4 strictly exceeds
the iteration count of any run (addresses advance by a page per leaf
iteration inside the 64-bit space), so the fuel branch is unreachable in
every run the theorems below describe. -/
def PML4.create_mapping (t : PML4) (virt_start virt_end phys : Nat)
    (attr : PageAttr) : Except String PML4 :=
  (mapLoop4 t virt_start virt_start virt_end phys attr (U64 + 4)).map Prod.fst

/-- Walk of a level-1 table at a virtual address. -/
def PT.walk (t : PT) (v : Nat) : Nat := t.entry (calc_index 1 v)

/-- Walk from a level-2 table: follow the entry for v if present. -/
def PD.walk (t : PD) (v : Nat) : Option Nat :=
  (t.entry (calc_index 2 v)).map (fun c => c.walk v)

/-- Walk from a level-3 table. -/
def PDPT.walk (t : PDPT) (v : Nat) : Option Nat :=
  (t.entry (calc_index 3 v)).bind (fun c => c.walk v)

/-- Walk the four levels from the root: the leaf entry value reached
from virtual address v, or none if some level is non-present. -/
def PML4.walk (t : PML4) (v : Nat) : Option Nat :=
  (t.entry (calc_index 4 v)).bind (fun c => c.walk v)

/-- Projection of an Except result to an Option. -/
def exOk {α : Type} : Except String α → Option α
  | .ok a => some a
  | .error _ => none

/-- The leaf value create_mapping stores for the page at v. -/
def leafVal (virt_start phys : Nat) (attr : PageAttr) (v : Nat) : Nat :=
  sub64 (add64 phys v) virt_start ||| attr.toNat

/-- The smallest multiple of 4096 that is at least e. -/
def pceil (e : Nat) : Nat := 4096 * ((e + 4095) / 4096)

/-- The end of the 2 ^ w aligned slot containing a: the smallest
multiple of 2 ^ w strictly greater than a. -/
def sEnd (w a : Nat) : Nat := 2 ^ w * (a / 2 ^ w + 1)

/-- Where a loop level with slot width 2 ^ w stops when started at a:
either the page-rounded end of the requested range or the end of the
current slot, whichever comes first. -/
def stopAt (w e a : Nat) : Nat := min (pceil e) (sEnd w a)

/-- A small concrete bitmap used to instantiate the drawing theorem. -/
def demoBitmap : Bitmap := ⟨10, 5, 12, fun _ => 0⟩

end Wasabi

namespace Wasabi

/-! ## Theorems: memory-map iterator (claims C2 and C10) -/

/-- Claim C10: for a freshly constructed holder (descriptor_size = 0 and
memory_map_size > 0), the iterator never terminates: every call to next
yields the descriptor at offset 0 and leaves the offset at 0, so none is
never reached. -/
theorem memory_map_iter_nonterminating (m : MemoryMapHolder)
    (h0 : m.descriptor_size = 0) (hs : 0 < m.memory_map_size) (n : Nat) :
    nthNext m n = some (0, 0) := by
  induction n with
  | zero =>
    simp [nthNext, MemoryMapIterator.next, Nat.not_le.mpr hs, h0]
  | succ n ih =>
    simp [nthNext, ih, MemoryMapIterator.next, Nat.not_le.mpr hs, h0]

/-- Witness for C10 at the holder produced by the constructor. -/
theorem memory_map_iter_nonterminating_witness :
    nthNext MemoryMapHolder.new 3 = some (0, 0) :=
  memory_map_iter_nonterminating MemoryMapHolder.new rfl (by decide) 3

/-- Characterisation of the iterator run: starting from any offset with a
positive descriptor stride and enough fuel, the run yields the offsets
ofs, ofs + d, ofs + 2d, ..., one per started descriptor below
memory_map_size. -/
theorem iterFrom_spec (m : MemoryMapHolder) (hd : 0 < m.descriptor_size) :
    ∀ fuel ofs,
      (m.memory_map_size - ofs + m.descriptor_size - 1) / m.descriptor_size ≤ fuel →
      iterFrom m fuel ofs =
        (List.range
            ((m.memory_map_size - ofs + m.descriptor_size - 1) / m.descriptor_size)).map
          (fun i => ofs + i * m.descriptor_size) := by
  intro fuel
  induction fuel with
  | zero =>
    intro ofs h
    rw [Nat.le_zero] at h
    simp [iterFrom, h]
  | succ fuel ih =>
    intro ofs h
    by_cases hofs : m.memory_map_size ≤ ofs
    · have hz : m.memory_map_size - ofs = 0 := Nat.sub_eq_zero_of_le hofs
      have hc : (m.memory_map_size - ofs + m.descriptor_size - 1) / m.descriptor_size = 0 := by
        rw [hz]
        exact Nat.div_eq_of_lt (by omega)
      rw [hc]
      simp [iterFrom, MemoryMapIterator.next, hofs]
    · have hlt : ofs < m.memory_map_size := Nat.lt_of_not_le hofs
      have hpos : 1 ≤ m.memory_map_size - ofs := by omega
      have hn : (m.memory_map_size - ofs + m.descriptor_size - 1) / m.descriptor_size =
          (m.memory_map_size - ofs - 1) / m.descriptor_size + 1 := by
        have he : m.memory_map_size - ofs + m.descriptor_size - 1 =
            (m.memory_map_size - ofs - 1) + m.descriptor_size := by omega
        rw [he, Nat.add_div_right _ hd]
      have hn' : (m.memory_map_size - (ofs + m.descriptor_size) + m.descriptor_size - 1) /
          m.descriptor_size = (m.memory_map_size - ofs - 1) / m.descriptor_size := by
        by_cases hbig : m.descriptor_size ≤ m.memory_map_size - ofs
        · have he : m.memory_map_size - (ofs + m.descriptor_size) + m.descriptor_size - 1 =
              m.memory_map_size - ofs - 1 := by omega
          rw [he]
        · have h1 : m.memory_map_size - (ofs + m.descriptor_size) = 0 := by omega
          rw [h1]
          rw [Nat.zero_add]
          rw [Nat.div_eq_of_lt (by omega), Nat.div_eq_of_lt (by omega)]
      have hrec := ih (ofs + m.descriptor_size) (by omega)
      rw [hn]
      have hnext : MemoryMapIterator.next m ofs = some (ofs, ofs + m.descriptor_size) := by
        simp [MemoryMapIterator.next, hofs]
      rw [iterFrom, hnext]
      show ofs :: iterFrom m fuel (ofs + m.descriptor_size) = _
      rw [hrec, hn']
      rw [List.range_succ_eq_map, List.map_cons, List.map_map]
      refine congrArg₂ _ (by omega) ?_
      refine List.map_congr_left ?_
      intro i _
      simp only [Function.comp_apply, Nat.succ_eq_add_one]
      ring

/-- Claim C2 (amended): with a positive descriptor stride, the iterator
yields the descriptors at offsets 0, d, 2d, ... in buffer order, and the
number of entries is the number of started descriptors
ceil(memory_map_size / descriptor_size); when descriptor_size divides
memory_map_size this is exactly memory_map_size / descriptor_size. -/
theorem memory_map_iter_entries (m : MemoryMapHolder) (hd : 0 < m.descriptor_size) :
    m.iter =
      (List.range
          ((m.memory_map_size + m.descriptor_size - 1) / m.descriptor_size)).map
        (fun i => i * m.descriptor_size) ∧
    (m.descriptor_size ∣ m.memory_map_size →
      m.iter.length = m.memory_map_size / m.descriptor_size) := by
  have hfuel : (m.memory_map_size - 0 + m.descriptor_size - 1) / m.descriptor_size ≤
      m.memory_map_size + 1 := by
    rw [Nat.sub_zero]
    have h1 : m.memory_map_size ≤ m.memory_map_size * m.descriptor_size :=
      Nat.le_mul_of_pos_right _ hd
    have h2 : (m.memory_map_size + m.descriptor_size - 1) / m.descriptor_size <
        m.memory_map_size + 2 := by
      rw [Nat.div_lt_iff_lt_mul hd]
      have : (m.memory_map_size + 2) * m.descriptor_size =
          m.memory_map_size * m.descriptor_size + 2 * m.descriptor_size := by ring
      omega
    omega
  have hiter := iterFrom_spec m hd (m.memory_map_size + 1) 0 hfuel
  rw [Nat.sub_zero] at hiter
  have hiter' : m.iter =
      (List.range
          ((m.memory_map_size + m.descriptor_size - 1) / m.descriptor_size)).map
        (fun i => i * m.descriptor_size) := by
    rw [MemoryMapHolder.iter, hiter]
    refine List.map_congr_left ?_
    intro i _
    omega
  refine ⟨hiter', ?_⟩
  intro hdvd
  obtain ⟨q, hq⟩ := hdvd
  rw [hiter', List.length_map, List.length_range, hq]
  have he : m.descriptor_size * q + m.descriptor_size - 1 =
      m.descriptor_size * q + (m.descriptor_size - 1) := by omega
  rw [he, Nat.mul_add_div hd, Nat.div_eq_of_lt (by omega), Nat.add_zero,
    Nat.mul_div_cancel_left q hd]

/-- Witness for C2 at a holder with three whole descriptors of stride 4. -/
theorem memory_map_iter_entries_witness :
    (MemoryMapHolder.mk 12 4).iter =
      (List.range
          (((MemoryMapHolder.mk 12 4).memory_map_size +
              (MemoryMapHolder.mk 12 4).descriptor_size - 1) /
            (MemoryMapHolder.mk 12 4).descriptor_size)).map
        (fun i => i * (MemoryMapHolder.mk 12 4).descriptor_size) ∧
    ((MemoryMapHolder.mk 12 4).descriptor_size ∣ (MemoryMapHolder.mk 12 4).memory_map_size →
      (MemoryMapHolder.mk 12 4).iter.length =
        (MemoryMapHolder.mk 12 4).memory_map_size / (MemoryMapHolder.mk 12 4).descriptor_size) :=
  memory_map_iter_entries (MemoryMapHolder.mk 12 4) (by decide)

/-- Counterexample to C2 as stated: with memory_map_size = 10 and
descriptor_size = 4 the iterator yields 3 descriptors (offsets 0, 4, 8),
not memory_map_size / descriptor_size = 2. -/
theorem memory_map_iter_count_cex :
    (MemoryMapHolder.mk 10 4).iter = [0, 4, 8] ∧
    (MemoryMapHolder.mk 10 4).iter.length ≠
      (MemoryMapHolder.mk 10 4).memory_map_size / (MemoryMapHolder.mk 10 4).descriptor_size := by
  decide

/-! ## Theorems: firmware handoff retry loop (claim C3) -/

/-- Success characterisation of the retry loop from any start index. -/
theorem exitLoop_success (o : BootServicesOracle) :
    ∀ fuel n k, n ≤ k →
      (∀ j, n ≤ j → j ≤ k → o.getStatus j = 0) →
      (∀ j, n ≤ j → j < k → o.exitStatus j (o.mapKey j) ≠ 0) →
      o.exitStatus k (o.mapKey k) = 0 →
      k - n < fuel →
      exitBootServicesLoop o fuel n = some (k + 1, k + 1) := by
  intro fuel
  induction fuel with
  | zero =>
    intro n k _ _ _ _ h
    omega
  | succ fuel ih =>
    intro n k hnk hget hexit hk hfuel
    have hget0 : o.getStatus n = 0 := hget n le_rfl hnk
    by_cases hnkeq : n = k
    · subst hnkeq
      simp [exitBootServicesLoop, hget0, hk]
    · have hlt : n < k := lt_of_le_of_ne hnk hnkeq
      have hex : o.exitStatus n (o.mapKey n) ≠ 0 := hexit n le_rfl hlt
      have := ih (n + 1) k (by omega) (fun j h1 h2 => hget j (by omega) h2)
        (fun j h1 h2 => hexit j (by omega) h2) hk (by omega)
      simp [exitBootServicesLoop, hget0, hex, this]

/-- If no exit_boot_services call ever succeeds, the loop never returns. -/
theorem exitLoop_diverges (o : BootServicesOracle)
    (hget : ∀ j, o.getStatus j = 0)
    (hexit : ∀ j, o.exitStatus j (o.mapKey j) ≠ 0) :
    ∀ fuel n, exitBootServicesLoop o fuel n = none := by
  intro fuel
  induction fuel with
  | zero => intro n; rfl
  | succ fuel ih =>
    intro n
    simp [exitBootServicesLoop, hget n, hexit n, ih (n + 1)]

/-- Claim C3: each iteration of exit_boot_services refreshes the memory
map (and its map_key) and then calls the firmware exit with that fresh
key; the loop returns exactly when an exit call reports success, after
k + 1 get_memory_map calls and k + 1 exit_boot_services calls when the
first success is the k-th exit call — in particular (2, 2) calls when
the first exit fails and the second succeeds — and never returns if no
exit call ever succeeds. -/
theorem exit_boot_services_retry (o : BootServicesOracle) :
    (∀ k fuel, (∀ j, j ≤ k → o.getStatus j = 0) →
      (∀ j, j < k → o.exitStatus j (o.mapKey j) ≠ 0) →
      o.exitStatus k (o.mapKey k) = 0 → k < fuel →
      exit_boot_services o fuel = some (k + 1, k + 1)) ∧
    ((∀ j, o.getStatus j = 0) → (∀ j, o.exitStatus j (o.mapKey j) ≠ 0) →
      ∀ fuel, exit_boot_services o fuel = none) := by
  constructor
  · intro k fuel hget hexit hk hfuel
    exact exitLoop_success o fuel 0 k (Nat.zero_le k)
      (fun j _ h2 => hget j h2) (fun j _ h2 => hexit j h2) hk (by omega)
  · intro hget hexit fuel
    exact exitLoop_diverges o hget hexit fuel 0

/-- Witness for C3: with the oracle whose first exit call fails and
second succeeds, exactly two get_memory_map and two exit_boot_services
calls are made. -/
theorem exit_boot_services_retry_witness :
    exit_boot_services oneFailureOracle 5 = some (2, 2) :=
  (exit_boot_services_retry oneFailureOracle).1 1 5
    (fun j _ => rfl)
    (by
      intro j hj
      have hj0 : j = 0 := by omega
      subst hj0
      decide)
    (by decide) (by decide)

/-! ## Theorems: interrupt frame layout (claim C4) -/

/-- Claim C4 (amended): the interrupt frame consumed by the Rust handler
is 688 bytes in total (not 576), laid out in order as the 512-byte
extended-FPU area, 8 bytes of padding, 15 general registers (all except
RSP and RIP), the error code, then the five-word tail
rip, cs, rflags, rsp, ss. -/
theorem interrupt_info_layout :
    structSize InterruptInfo.fields = 688 ∧
    fieldOffset InterruptInfo.fields "fpu_context" = 0 ∧
    fieldOffset InterruptInfo.fields "_dummy" = 512 ∧
    fieldOffset InterruptInfo.fields "greg" = 520 ∧
    fieldOffset InterruptInfo.fields "error_code" = 640 ∧
    fieldOffset InterruptInfo.fields "ctx" = 648 ∧
    structSize GeneralRegisterContext.fields = 15 * 8 ∧
    GeneralRegisterContext.fields.length = 15 ∧
    "rsp" ∉ GeneralRegisterContext.fields.map Prod.fst ∧
    "rip" ∉ GeneralRegisterContext.fields.map Prod.fst ∧
    InterruptContext.fields.map Prod.fst = ["rip", "cs", "rflags", "rsp", "ss"] ∧
    structSize InterruptContext.fields = 5 * 8 := by
  decide

/-- Counterexample to C4 as stated: the frame is 688 bytes, not 576
(the stated layout itself sums to 512 + 8 + 120 + 8 + 40 = 688, and the
source carries a compile-time assertion of 688). -/
theorem interrupt_info_size_cex :
    structSize InterruptInfo.fields = 688 ∧ structSize InterruptInfo.fields ≠ 576 := by
  decide

/-! ## Theorems: TSS descriptor in the GDT (claim C5) -/

/-- Claim C5 (amended): the TSS descriptor placed in the fourth GDT slot
has its limit field equal to 104 (the byte size of the TSS block, not
the architectural size-minus-one 103), attribute bits 0x8089, and base
fields that reassemble to the physical address of the TSS block. -/
theorem tss_descriptor_fields (base : Nat) (hbase : base < 2 ^ 64) :
    (GdtWrapper.default base).task_state_segment.limit_low = 104 ∧
    (GdtWrapper.default base).task_state_segment.attr = 0x8089 ∧
    (GdtWrapper.default base).task_state_segment.base_low +
      (GdtWrapper.default base).task_state_segment.base_mid_low * 2 ^ 16 +
      (GdtWrapper.default base).task_state_segment.base_mid_high * 2 ^ 24 +
      (GdtWrapper.default base).task_state_segment.base_high * 2 ^ 32 = base := by
  refine ⟨rfl, rfl, ?_⟩
  show base % 2 ^ 16 + base / 2 ^ 16 % 2 ^ 8 * 2 ^ 16 + base / 2 ^ 24 % 2 ^ 8 * 2 ^ 24 +
      base / 2 ^ 32 % 2 ^ 32 * 2 ^ 32 = base
  omega

/-- Witness for C5 at a concrete base address. -/
theorem tss_descriptor_fields_witness :
    (GdtWrapper.default 0xFEDCBA987654).task_state_segment.limit_low = 104 ∧
    (GdtWrapper.default 0xFEDCBA987654).task_state_segment.attr = 0x8089 ∧
    (GdtWrapper.default 0xFEDCBA987654).task_state_segment.base_low +
      (GdtWrapper.default 0xFEDCBA987654).task_state_segment.base_mid_low * 2 ^ 16 +
      (GdtWrapper.default 0xFEDCBA987654).task_state_segment.base_mid_high * 2 ^ 24 +
      (GdtWrapper.default 0xFEDCBA987654).task_state_segment.base_high * 2 ^ 32 =
      0xFEDCBA987654 :=
  tss_descriptor_fields 0xFEDCBA987654 (by decide)

/-- Counterexample to C5 as stated: the limit field written by the
constructor is 104, not 103. -/
theorem tss_descriptor_limit_cex :
    (GdtWrapper.default 0).task_state_segment.limit_low = 104 ∧
    (GdtWrapper.default 0).task_state_segment.limit_low ≠ 103 := by
  decide

/-! ## Theorems: framebuffer drawing (claim C8) -/

/-- Claim C8: draw_point succeeds, writing the pixel, exactly when
0 ≤ x < min(width, pixels_per_line) and 0 ≤ y < height; for every other
coordinate pair it returns the out-of-range error as a value and leaves
the bitmap unchanged. -/
theorem draw_point_range_check (b : Bitmap) (color : Nat) (x y : Int) :
    ((draw_point b color x y).2 = .ok () ↔
      (0 ≤ x ∧ x < min b.width b.pixels_per_line ∧ 0 ≤ y ∧ y < b.height)) ∧
    ((0 ≤ x ∧ x < min b.width b.pixels_per_line ∧ 0 ≤ y ∧ y < b.height) →
      (draw_point b color x y).1.buf (y * b.pixels_per_line + x) = color) ∧
    (¬(0 ≤ x ∧ x < min b.width b.pixels_per_line ∧ 0 ≤ y ∧ y < b.height) →
      (draw_point b color x y).1 = b ∧
      (draw_point b color x y).2 = .error "Out of Range") := by
  by_cases h : (0 ≤ x ∧ x < min b.width b.pixels_per_line ∧ 0 ≤ y ∧ y < b.height)
  · obtain ⟨h1, h2, h3, h4⟩ := h
    have hcond : b.is_in_x_range x ∧ b.is_in_y_range y := ⟨⟨h1, h2⟩, ⟨h3, h4⟩⟩
    have hdp : draw_point b color x y =
        ({ b with buf := Function.update b.buf (y * b.pixels_per_line + x) color }, .ok ()) := by
      rw [draw_point, Bitmap.pixel_at_mut, if_pos hcond]
    rw [hdp]
    refine ⟨by simp [h1, h2, h3, h4], fun _ => ?_, fun hc => absurd ⟨h1, h2, h3, h4⟩ hc⟩
    simp [Function.update_same]
  · have hcond : ¬(b.is_in_x_range x ∧ b.is_in_y_range y) := by
      rw [Bitmap.is_in_x_range, Bitmap.is_in_y_range]
      tauto
    have hdp : draw_point b color x y = (b, .error "Out of Range") := by
      rw [draw_point, Bitmap.pixel_at_mut, if_neg hcond]
    rw [hdp]
    refine ⟨⟨fun he => ?_, fun hc => absurd hc h⟩, fun hc => absurd hc h, fun _ => ⟨rfl, rfl⟩⟩
    exact absurd he (by simp)

/-! ## Theorems: IDT construction (claim C6) -/

/-- Claim C6: the IDT has 256 gates; vectors 3, 6, 8, 13, 14, 32 are
bound to six pairwise distinct entry stubs and every other vector to the
unimplemented-trap stub; vector 3 has DPL 3 and all others DPL 0;
vector 8 uses IST index 2 and all others IST index 1; every gate uses
the given kernel-code selector, the interrupt-gate type (low attribute
nibble 14) and present = 1. -/
theorem idt_getD (sel v : Nat) (hv : v < 256) :
    (Idt.new sel).getD v Idt.defaultGate =
      IdtDescriptor.new sel (if v = 8 then 2 else 1)
        (if v = 3 then IdtAttr.IntGateDPL3 else IdtAttr.IntGateDPL0)
        (Idt.expectedHandler v) := by
  rw [Idt.new, List.getD_eq_getElem?_getD]
  rw [List.getElem?_set, List.getElem?_set, List.getElem?_set, List.getElem?_set,
    List.getElem?_set, List.getElem?_set, List.getElem?_replicate]
  simp only [List.length_set, List.length_replicate]
  by_cases h32 : (32 : Nat) = v
  · subst h32
    simp [Idt.expectedHandler]
  · rw [if_neg h32]
    by_cases h14 : (14 : Nat) = v
    · subst h14
      simp [Idt.expectedHandler]
    · rw [if_neg h14]
      by_cases h13 : (13 : Nat) = v
      · subst h13
        simp [Idt.expectedHandler]
      · rw [if_neg h13]
        by_cases h8 : (8 : Nat) = v
        · subst h8
          simp [Idt.expectedHandler]
        · rw [if_neg h8]
          by_cases h6 : (6 : Nat) = v
          · subst h6
            simp [Idt.expectedHandler]
          · rw [if_neg h6]
            by_cases h3 : (3 : Nat) = v
            · subst h3
              simp [Idt.expectedHandler]
            · rw [if_neg h3, if_pos hv]
              simp only [Option.getD_some]
              rw [Idt.expectedHandler, if_neg (by omega), if_neg (by omega),
                if_neg (by omega), if_neg (by omega), if_neg (by omega),
                if_neg (by omega)]
              rw [if_neg (by omega), if_neg (by omega)]

/-- Claim C6: the IDT has 256 gates; vectors 3, 6, 8, 13, 14, 32 are
bound to six pairwise distinct entry stubs and every other vector to the
unimplemented-trap stub; vector 3 has DPL 3 and all others DPL 0;
vector 8 uses IST index 2 and all others IST index 1; every gate uses
the given kernel-code selector, the interrupt-gate type (low attribute
nibble 14) and present = 1. -/
theorem idt_new_gates (sel : Nat) :
    (Idt.new sel).length = 256 ∧
    (∀ v, v < 256 → idtGateSpec sel v) ∧
    [IdtHandler.interrupt_entrypoint3, .interrupt_entrypoint6, .interrupt_entrypoint8,
      .interrupt_entrypoint13, .interrupt_entrypoint14,
      .interrupt_entrypoint32].Pairwise (· ≠ ·) := by
  refine ⟨by simp only [Idt.new, List.length_set, List.length_replicate], ?_, by decide⟩
  intro v hv
  unfold idtGateSpec
  rw [idt_getD sel v hv]
  refine ⟨rfl, rfl, rfl, ?_, ?_, ?_⟩
  · by_cases hv3 : v = 3
    · rw [if_pos hv3]
      show IdtAttr.IntGateDPL3.toNat % 16 = 14
      decide
    · rw [if_neg hv3]
      show IdtAttr.IntGateDPL0.toNat % 16 = 14
      decide
  · by_cases hv3 : v = 3
    · rw [if_pos hv3]
      show IdtAttr.IntGateDPL3.toNat / 128 = 1
      decide
    · rw [if_neg hv3]
      show IdtAttr.IntGateDPL0.toNat / 128 = 1
      decide
  · by_cases hv3 : v = 3
    · rw [if_pos hv3, if_pos hv3]
      show IdtAttr.IntGateDPL3.toNat / 32 % 4 = 3
      decide
    · rw [if_neg hv3, if_neg hv3]
      show IdtAttr.IntGateDPL0.toNat / 32 % 4 = 0
      decide

/-- Witness for C6 at the kernel-code selector 8 and vectors 3, 8, 0. -/
theorem idt_new_gates_witness :
    (Idt.new 8).length = 256 ∧ idtGateSpec 8 3 ∧ idtGateSpec 8 8 ∧ idtGateSpec 8 0 :=
  ⟨(idt_new_gates 8).1, (idt_new_gates 8).2.1 3 (by decide),
    (idt_new_gates 8).2.1 8 (by decide), (idt_new_gates 8).2.1 0 (by decide)⟩

/-! ## Theorems: misaligned physical addresses (claim C7) -/

/-- The page offset passed to set_page is congruent to phys modulo 4096
(the address walked is virt_start plus a multiple of the page size). -/
theorem sub64_add64_mod4096 (phys vs : Nat) :
    sub64 (add64 phys vs) vs % 4096 = phys % 4096 := by
  unfold sub64 add64 U64
  omega

/-- With a misaligned physical address the first set_page of the
innermost loop fails, for any fuel. -/
theorem mapLoop1_misaligned (t : PT) (a vs ve phys : Nat) (attr : PageAttr) (f : Nat)
    (h : sub64 (add64 phys a) vs % 4096 ≠ 0) :
    mapLoop1 t a vs ve phys attr (f + 1) = .error "phys is not aligned" := by
  rw [mapLoop1]
  simp [Entry.set_page, h]

/-- The misalignment error propagates through the level-2 loop. -/
theorem mapLoop2_misaligned (t : PD) (a vs ve phys : Nat) (attr : PageAttr) (f : Nat)
    (h : sub64 (add64 phys a) vs % 4096 ≠ 0) :
    mapLoop2 t a vs ve phys attr (f + 2) = .error "phys is not aligned" := by
  rw [show f + 2 = (f + 1) + 1 from rfl, mapLoop2]
  simp [mapLoop1_misaligned _ _ _ _ _ _ f h]

/-- The misalignment error propagates through the level-3 loop. -/
theorem mapLoop3_misaligned (t : PDPT) (a vs ve phys : Nat) (attr : PageAttr) (f : Nat)
    (h : sub64 (add64 phys a) vs % 4096 ≠ 0) :
    mapLoop3 t a vs ve phys attr (f + 3) = .error "phys is not aligned" := by
  rw [show f + 3 = (f + 2) + 1 from rfl, mapLoop3]
  simp [mapLoop2_misaligned _ _ _ _ _ _ f h]

/-- The misalignment error propagates through the level-4 loop. -/
theorem mapLoop4_misaligned (t : PML4) (a vs ve phys : Nat) (attr : PageAttr) (f : Nat)
    (h : sub64 (add64 phys a) vs % 4096 ≠ 0) :
    mapLoop4 t a vs ve phys attr (f + 4) = .error "phys is not aligned" := by
  rw [show f + 4 = (f + 3) + 1 from rfl, mapLoop4]
  simp [mapLoop3_misaligned _ _ _ _ _ _ f h]

/-- Claim C7: set_page returns the misalignment error exactly when the
physical address has one of its low 12 bits set, leaving the entry
unchanged in that case, and create_mapping with a misaligned physical
base (which makes every page's target misaligned, the offsets being
multiples of 4096) fails with that error instead of writing a leaf. -/
theorem set_page_misalignment :
    (∀ value phys attr,
      ((Entry.set_page value phys attr).2 = Except.error "phys is not aligned" ↔
        phys % 4096 ≠ 0) ∧
      (phys % 4096 ≠ 0 → (Entry.set_page value phys attr).1 = value)) ∧
    (∀ (t : PML4) (virt_start virt_end phys : Nat) (attr : PageAttr), phys % 4096 ≠ 0 →
      PML4.create_mapping t virt_start virt_end phys attr =
        Except.error "phys is not aligned") := by
  constructor
  · intro value phys attr
    constructor
    · by_cases h : phys % 4096 ≠ 0
      · simp [Entry.set_page, h]
      · simp [Entry.set_page, h]
    · intro h
      simp [Entry.set_page, h]
  · intro t virt_start virt_end phys attr h
    have hpa : sub64 (add64 phys virt_start) virt_start % 4096 ≠ 0 := by
      rw [sub64_add64_mod4096]
      exact h
    rw [PML4.create_mapping, mapLoop4_misaligned t virt_start virt_start virt_end phys attr U64 hpa]
    rfl

/-- Witness for C7 at a concrete misaligned physical address. -/
theorem set_page_misalignment_witness :
    (((Entry.set_page 0 0x1001 PageAttr.ReadWriteKernel).2 =
        Except.error "phys is not aligned" ↔ (0x1001 : Nat) % 4096 ≠ 0) ∧
      ((0x1001 : Nat) % 4096 ≠ 0 →
        (Entry.set_page 0 0x1001 PageAttr.ReadWriteKernel).1 = 0)) ∧
    PML4.create_mapping PML4.empty 0x1000 0x3000 0x1001 PageAttr.ReadWriteKernel =
      Except.error "phys is not aligned" :=
  ⟨(set_page_misalignment).1 0 0x1001 PageAttr.ReadWriteKernel,
    (set_page_misalignment).2 PML4.empty 0x1000 0x3000 0x1001 PageAttr.ReadWriteKernel
      (by decide)⟩

/-! ## Theorems: create_mapping with an empty range (claim C9) -/

/-- Level-1 index of an address in the last page of the 64-bit space. -/
theorem calc_index1_hi (a : Nat) (h1 : U64 - 4096 ≤ a) (h2 : a < U64) :
    calc_index 1 a = 511 := by
  unfold calc_index U64 at *
  norm_num at *
  omega

/-- Level-2 index of an address in the last 2 MiB slot of the 64-bit
space. -/
theorem calc_index2_hi (a : Nat) (h1 : U64 - 2 ^ 21 ≤ a) (h2 : a < U64) :
    calc_index 2 a = 511 := by
  unfold calc_index U64 at *
  norm_num at *
  omega

/-- Level-3 index of an address in the last 1 GiB slot of the 64-bit
space. -/
theorem calc_index3_hi (a : Nat) (h1 : U64 - 2 ^ 30 ≤ a) (h2 : a < U64) :
    calc_index 3 a = 511 := by
  unfold calc_index U64 at *
  norm_num at *
  omega

/-- Level-4 index of an address in the last 512 GiB slot of the 64-bit
space. -/
theorem calc_index4_hi (a : Nat) (h1 : U64 - 2 ^ 39 ≤ a) (h2 : a < U64) :
    calc_index 4 a = 511 := by
  unfold calc_index U64 at *
  norm_num at *
  omega

/-- Wrapping subtraction undoes wrapping addition below 2 ^ 64. -/
theorem sub64_add64_cancel (phys vs : Nat) (hph : phys < U64) :
    sub64 (add64 phys vs) vs = phys := by
  unfold sub64 add64 U64 at *
  omega

/-- One iteration of the innermost loop when the loop exits right after
the first page. -/
theorem mapLoop1_once (t : PT) (a vs ve phys : Nat) (attr : PageAttr) (f : Nat)
    (hpa : sub64 (add64 phys a) vs % 4096 = 0)
    (hstop : 512 ≤ calc_index 1 a + 1 ∨ ve ≤ add64 a PAGE_SIZE) :
    mapLoop1 t a vs ve phys attr (f + 1) =
      .ok (t.set (calc_index 1 a) (sub64 (add64 phys a) vs ||| attr.toNat),
        add64 a PAGE_SIZE, calc_index 1 a) := by
  rw [mapLoop1]
  simp only [Entry.set_page, hpa, ne_eq, not_true_eq_false, if_false, ite_false,
    not_false_eq_true]
  rw [if_pos hstop]

/-- One iteration of the level-2 loop when both inner conditions stop
after the first page. -/
theorem mapLoop2_once (t : PD) (a vs ve phys : Nat) (attr : PageAttr) (f : Nat)
    (hpa : sub64 (add64 phys a) vs % 4096 = 0)
    (hstop1 : 512 ≤ calc_index 1 a + 1 ∨ ve ≤ add64 a PAGE_SIZE)
    (hstop2 : 512 ≤ calc_index 2 a + 1 ∨ ve ≤ add64 a PAGE_SIZE) :
    mapLoop2 t a vs ve phys attr (f + 2) =
      .ok ((t.ensure_populated (calc_index 2 a)).2.set (calc_index 2 a)
          ((t.ensure_populated (calc_index 2 a)).1.set (calc_index 1 a)
            (sub64 (add64 phys a) vs ||| attr.toNat)),
        add64 a PAGE_SIZE, calc_index 2 a) := by
  rw [show f + 2 = (f + 1) + 1 from rfl, mapLoop2]
  rw [mapLoop1_once _ _ _ _ _ _ f hpa hstop1]
  simp only []
  rw [if_pos hstop2]

/-- One iteration of the level-3 loop when all inner conditions stop
after the first page. -/
theorem mapLoop3_once (t : PDPT) (a vs ve phys : Nat) (attr : PageAttr) (f : Nat)
    (hpa : sub64 (add64 phys a) vs % 4096 = 0)
    (hstop1 : 512 ≤ calc_index 1 a + 1 ∨ ve ≤ add64 a PAGE_SIZE)
    (hstop2 : 512 ≤ calc_index 2 a + 1 ∨ ve ≤ add64 a PAGE_SIZE)
    (hstop3 : 512 ≤ calc_index 3 a + 1 ∨ ve ≤ add64 a PAGE_SIZE) :
    mapLoop3 t a vs ve phys attr (f + 3) =
      .ok ((t.ensure_populated (calc_index 3 a)).2.set (calc_index 3 a)
          (((t.ensure_populated (calc_index 3 a)).1.ensure_populated
              (calc_index 2 a)).2.set (calc_index 2 a)
            (((t.ensure_populated (calc_index 3 a)).1.ensure_populated
                (calc_index 2 a)).1.set (calc_index 1 a)
              (sub64 (add64 phys a) vs ||| attr.toNat))),
        add64 a PAGE_SIZE, calc_index 3 a) := by
  rw [show f + 3 = (f + 2) + 1 from rfl, mapLoop3]
  rw [mapLoop2_once _ _ _ _ _ _ f hpa hstop1 hstop2]
  simp only []
  rw [if_pos hstop3]

/-- One iteration of the level-4 loop when all inner conditions stop
after the first page. -/
theorem mapLoop4_once (t : PML4) (a vs ve phys : Nat) (attr : PageAttr) (f : Nat)
    (hpa : sub64 (add64 phys a) vs % 4096 = 0)
    (hstop1 : 512 ≤ calc_index 1 a + 1 ∨ ve ≤ add64 a PAGE_SIZE)
    (hstop2 : 512 ≤ calc_index 2 a + 1 ∨ ve ≤ add64 a PAGE_SIZE)
    (hstop3 : 512 ≤ calc_index 3 a + 1 ∨ ve ≤ add64 a PAGE_SIZE)
    (hstop4 : 512 ≤ calc_index 4 a + 1 ∨ ve ≤ add64 a PAGE_SIZE) :
    mapLoop4 t a vs ve phys attr (f + 4) =
      .ok ((t.ensure_populated (calc_index 4 a)).2.set (calc_index 4 a)
          ((((t.ensure_populated (calc_index 4 a)).1.ensure_populated
              (calc_index 3 a)).2).set (calc_index 3 a)
            (((((t.ensure_populated (calc_index 4 a)).1.ensure_populated
                  (calc_index 3 a)).1).ensure_populated (calc_index 2 a)).2.set
              (calc_index 2 a)
              (((((t.ensure_populated (calc_index 4 a)).1.ensure_populated
                    (calc_index 3 a)).1).ensure_populated (calc_index 2 a)).1.set
                (calc_index 1 a) (sub64 (add64 phys a) vs ||| attr.toNat)))),
        add64 a PAGE_SIZE, calc_index 4 a) := by
  rw [show f + 4 = (f + 3) + 1 from rfl, mapLoop4]
  rw [mapLoop3_once _ _ _ _ _ _ f hpa hstop1 hstop2 hstop3]
  simp only []
  rw [if_pos hstop4]

/-- Claim C9: with virt_end ≤ virt_start (in particular an empty range),
create_mapping still populates the walk for virt_start and writes one
leaf entry mapping the page containing virt_start to phys | attr before
terminating successfully. -/
theorem create_mapping_empty_range (t : PML4) (vs ve phys : Nat) (attr : PageAttr)
    (hve : ve ≤ vs) (hvs : vs < U64) (hph4 : phys % 4096 = 0) (hph : phys < U64) :
    ∃ t', PML4.create_mapping t vs ve phys attr = .ok t' ∧
      t'.walk vs = some (phys ||| attr.toNat) := by
  have hpa0 : sub64 (add64 phys vs) vs = phys := sub64_add64_cancel phys vs hph
  have hpa : sub64 (add64 phys vs) vs % 4096 = 0 := by rw [hpa0]; exact hph4
  have hstop : ∀ k, k ∈ [1, 2, 3, 4] →
      (512 ≤ calc_index k vs + 1 ∨ ve ≤ add64 vs PAGE_SIZE) := by
    intro k hk
    by_cases hwrap : vs + 4096 < U64
    · right
      have : add64 vs PAGE_SIZE = vs + 4096 := by
        unfold add64 PAGE_SIZE U64 at *
        omega
      omega
    · left
      have h1 : U64 - 4096 ≤ vs := by omega
      fin_cases hk
      · rw [calc_index1_hi vs h1 hvs]
      · rw [calc_index2_hi vs (by unfold U64 at *; omega) hvs]
      · rw [calc_index3_hi vs (by unfold U64 at *; omega) hvs]
      · rw [calc_index4_hi vs (by unfold U64 at *; omega) hvs]
  have honce := mapLoop4_once t vs vs ve phys attr U64 hpa
    (hstop 1 (by simp)) (hstop 2 (by simp)) (hstop 3 (by simp)) (hstop 4 (by simp))
  refine ⟨_, by rw [PML4.create_mapping, honce]; rfl, ?_⟩
  rw [hpa0]
  simp [PML4.walk, PDPT.walk, PD.walk, PT.walk, PML4.set, PDPT.set, PD.set, PT.set,
    Function.update_same]

/-- Witness for C9 at a concrete root and an empty range. -/
theorem create_mapping_empty_range_witness :
    ∃ t', PML4.create_mapping PML4.empty 0x5000 0x5000 0x7000 PageAttr.ReadWriteKernel =
        .ok t' ∧
      t'.walk 0x5000 = some (0x7000 ||| PageAttr.ReadWriteKernel.toNat) :=
  create_mapping_empty_range PML4.empty 0x5000 0x5000 0x7000 PageAttr.ReadWriteKernel
    (by decide) (by decide) (by decide) (by decide)

/-- Witness for C8 at an in-range coordinate of a concrete bitmap. -/
theorem draw_point_range_check_witness :
    ((draw_point demoBitmap 7 3 4).2 = .ok () ↔
      (0 ≤ (3 : Int) ∧ (3 : Int) < min demoBitmap.width demoBitmap.pixels_per_line ∧
        0 ≤ (4 : Int) ∧ (4 : Int) < demoBitmap.height)) ∧
    ((0 ≤ (3 : Int) ∧ (3 : Int) < min demoBitmap.width demoBitmap.pixels_per_line ∧
        0 ≤ (4 : Int) ∧ (4 : Int) < demoBitmap.height) →
      (draw_point demoBitmap 7 3 4).1.buf (4 * demoBitmap.pixels_per_line + 3) = 7) ∧
    (¬(0 ≤ (3 : Int) ∧ (3 : Int) < min demoBitmap.width demoBitmap.pixels_per_line ∧
        0 ≤ (4 : Int) ∧ (4 : Int) < demoBitmap.height) →
      (draw_point demoBitmap 7 3 4).1 = demoBitmap ∧
      (draw_point demoBitmap 7 3 4).2 = .error "Out of Range") :=
  draw_point_range_check demoBitmap 7 3 4

/-! ## Theorems: create_mapping maps the requested range (claim C1) -/

/-- The level-1 index in arithmetic form. -/
theorem calc_index_one (a : Nat) : calc_index 1 a = a / 2 ^ 12 % 512 := rfl

/-- The level-2 index in arithmetic form. -/
theorem calc_index_two (a : Nat) : calc_index 2 a = a / 2 ^ 21 % 512 := rfl

/-- The level-3 index in arithmetic form. -/
theorem calc_index_three (a : Nat) : calc_index 3 a = a / 2 ^ 30 % 512 := rfl

/-- The level-4 index in arithmetic form. -/
theorem calc_index_four (a : Nat) : calc_index 4 a = a / 2 ^ 39 % 512 := rfl

/-- Table indices are always below 512. -/
theorem calc_index_lt (level a : Nat) : calc_index level a < 512 := by
  unfold calc_index
  exact Nat.mod_lt _ (by norm_num)

/-- Populating one entry leaves the other entries of a level-2 table
unchanged. -/
theorem PD.ensure_pres_pd (t : PD) (j i : Nat) (h : i ≠ j) :
    ((t.ensure_populated j).2).entry i = t.entry i := by
  unfold PD.ensure_populated
  cases ht : t.entry j <;> simp [ht, PD.set, Function.update_noteq h]

/-- Populating one entry leaves the other entries of a level-3 table
unchanged. -/
theorem PDPT.ensure_pres_pdpt (t : PDPT) (j i : Nat) (h : i ≠ j) :
    ((t.ensure_populated j).2).entry i = t.entry i := by
  unfold PDPT.ensure_populated
  cases ht : t.entry j <;> simp [ht, PDPT.set, Function.update_noteq h]

/-- Populating one entry leaves the other entries of the root table
unchanged. -/
theorem PML4.ensure_pres_pml4 (t : PML4) (j i : Nat) (h : i ≠ j) :
    ((t.ensure_populated j).2).entry i = t.entry i := by
  unfold PML4.ensure_populated
  cases ht : t.entry j <;> simp [ht, PML4.set, Function.update_noteq h]

/-- Specification of the innermost mapping loop: started at a page
aligned address a below virt_end with enough fuel, it succeeds, writes
the leaf entry of every page from a up to the stop point (the range end
rounded up to a page, capped at the end of the current 2 MiB slot),
returns that stop point (mod 2 ^ 64) as the next address, and leaves
the entries below the starting index untouched. -/
theorem mapLoop1_spec (vs ve phys : Nat) (attr : PageAttr)
    (hvs : vs % 4096 = 0) (hph : phys % 4096 = 0) (hveU : ve ≤ U64) :
    ∀ fuel a (t : PT), a % 4096 = 0 → a < ve → ve - a ≤ fuel →
    ∃ t' r, mapLoop1 t a vs ve phys attr fuel = .ok (t', stopAt 21 ve a % U64, r) ∧
      (∀ v, v % 4096 = 0 → a ≤ v → v < stopAt 21 ve a →
        t'.entry (calc_index 1 v) = leafVal vs phys attr v) ∧
      (∀ i, i < calc_index 1 a → t'.entry i = t.entry i) := by
  intro fuel
  induction fuel with
  | zero =>
    intro a t _ h1 h2
    omega
  | succ fuel ih =>
    intro a t ha hav hfuel
    have haU : a < U64 := by
      unfold U64 at *
      omega
    have hpa : sub64 (add64 phys a) vs % 4096 = 0 := by
      unfold sub64 add64 U64
      omega
    rw [mapLoop1]
    simp only [Entry.set_page, hpa, ne_eq, not_true_eq_false, if_false, ite_false,
      not_false_eq_true]
    have hadd : add64 a PAGE_SIZE = (a + 4096) % U64 := rfl
    by_cases hcond : 512 ≤ calc_index 1 a + 1 ∨ ve ≤ add64 a PAGE_SIZE
    · rw [if_pos hcond]
      have hcond' : 512 ≤ a / 2 ^ 12 % 512 + 1 ∨ ve ≤ (a + 4096) % 2 ^ 64 := by
        rcases hcond with hc | hc
        · left
          rw [calc_index_one] at hc
          exact hc
        · right
          rw [hadd] at hc
          unfold U64 at hc
          exact hc
      have hM : stopAt 21 ve a = a + 4096 := by
        unfold stopAt pceil sEnd U64 at *
        omega
      refine ⟨PT.set t (calc_index 1 a) (sub64 (add64 phys a) vs ||| attr.toNat),
        calc_index 1 a, ?_, ?_, ?_⟩
      · rw [hM, hadd]
      · intro v hv4 hva hvM
        rw [hM] at hvM
        have hveq : v = a := by omega
        subst hveq
        simp [PT.set, Function.update_same, leafVal]
      · intro i hi
        simp only [PT.set]
        rw [Function.update_noteq (by omega)]
    · rw [if_neg hcond]
      push_neg at hcond
      obtain ⟨hc1, hc2⟩ := hcond
      rw [calc_index_one] at hc1
      rw [hadd] at hc2
      have hnw : a + 4096 < U64 := by
        unfold U64 at *
        omega
      have hadd' : add64 a PAGE_SIZE = a + 4096 := by
        rw [hadd, Nat.mod_eq_of_lt hnw]
      have hc2' : a + 4096 < ve := by
        rw [Nat.mod_eq_of_lt (by unfold U64 at *; omega)] at hc2
        exact hc2
      have hidx_succ : calc_index 1 (a + 4096) = calc_index 1 a + 1 := by
        rw [calc_index_one, calc_index_one]
        omega
      have hstop_eq : stopAt 21 ve (a + 4096) = stopAt 21 ve a := by
        unfold stopAt pceil sEnd U64 at *
        omega
      obtain ⟨t'', r, heq, hwalk, hpres⟩ :=
        ih (a + 4096) (PT.set t (calc_index 1 a) (sub64 (add64 phys a) vs ||| attr.toNat))
          (by omega) hc2' (by omega)
      rw [hstop_eq] at heq
      refine ⟨t'', r, ?_, ?_, ?_⟩
      · rw [hadd']
        exact heq
      · intro v hv4 hva hvM
        by_cases hvcase : a + 4096 ≤ v
        · exact hwalk v hv4 hvcase (by rw [hstop_eq]; exact hvM)
        · have hveq : v = a := by omega
          subst hveq
          rw [hpres (calc_index 1 v) (by omega)]
          simp [PT.set, Function.update_same, leafVal]
      · intro i hi
        rw [hpres i (by omega)]
        simp only [PT.set]
        rw [Function.update_noteq (by omega)]

/-- Addresses in the same 2 MiB slot share their level-2 index. -/
theorem calc_index2_same (a v : Nat) (h1 : a ≤ v) (h2 : v < sEnd 21 a) :
    calc_index 2 v = calc_index 2 a := by
  rw [calc_index_two, calc_index_two]
  unfold sEnd at h2
  omega

/-- Stepping to the end of the current 2 MiB slot increments the level-2
index when it does not overflow. -/
theorem calc_index2_succ (a : Nat) (h : calc_index 2 a + 1 < 512) :
    calc_index 2 (sEnd 21 a) = calc_index 2 a + 1 := by
  rw [calc_index_two] at h
  rw [calc_index_two, calc_index_two]
  unfold sEnd
  omega

/-- Addresses in the same 1 GiB slot share their level-3 index. -/
theorem calc_index3_same (a v : Nat) (h1 : a ≤ v) (h2 : v < sEnd 30 a) :
    calc_index 3 v = calc_index 3 a := by
  rw [calc_index_three, calc_index_three]
  unfold sEnd at h2
  omega

/-- Stepping to the end of the current 1 GiB slot increments the level-3
index when it does not overflow. -/
theorem calc_index3_succ (a : Nat) (h : calc_index 3 a + 1 < 512) :
    calc_index 3 (sEnd 30 a) = calc_index 3 a + 1 := by
  rw [calc_index_three] at h
  rw [calc_index_three, calc_index_three]
  unfold sEnd
  omega

/-- Addresses in the same 512 GiB slot share their level-4 index. -/
theorem calc_index4_same (a v : Nat) (h1 : a ≤ v) (h2 : v < sEnd 39 a) :
    calc_index 4 v = calc_index 4 a := by
  rw [calc_index_four, calc_index_four]
  unfold sEnd at h2
  omega

/-- Stepping to the end of the current 512 GiB slot increments the
level-4 index when it does not overflow. -/
theorem calc_index4_succ (a : Nat) (h : calc_index 4 a + 1 < 512) :
    calc_index 4 (sEnd 39 a) = calc_index 4 a + 1 := by
  rw [calc_index_four] at h
  rw [calc_index_four, calc_index_four]
  unfold sEnd
  omega

/-- Specification of the level-2 mapping loop: started at a page aligned
address a below virt_end with enough fuel, it succeeds, makes the walk
of every page from a up to the stop point (range end rounded to pages,
capped at the end of the current 1 GiB slot) reach its leaf value,
returns that stop point (mod 2 ^ 64), and leaves the entries below the
starting level-2 index untouched. -/
theorem mapLoop2_spec (vs ve phys : Nat) (attr : PageAttr)
    (hvs : vs % 4096 = 0) (hph : phys % 4096 = 0) (hveU : ve ≤ U64) :
    ∀ fuel a (t : PD), a % 4096 = 0 → a < ve → ve - a + 1 ≤ fuel →
    ∃ t' r, mapLoop2 t a vs ve phys attr fuel = .ok (t', stopAt 30 ve a % U64, r) ∧
      (∀ v, v % 4096 = 0 → a ≤ v → v < stopAt 30 ve a →
        t'.walk v = some (leafVal vs phys attr v)) ∧
      (∀ i, i < calc_index 2 a → t'.entry i = t.entry i) := by
  intro fuel
  induction fuel with
  | zero =>
    intro a t _ h1 h2
    omega
  | succ fuel ih =>
    intro a t ha hav hfuel
    have haU : a < U64 := by
      unfold U64 at *
      omega
    obtain ⟨c', r1, heq1, hwalk1, _⟩ :=
      mapLoop1_spec vs ve phys attr hvs hph hveU fuel a
        ((t.ensure_populated (calc_index 2 a)).1) ha hav (by omega)
    rw [mapLoop2]
    simp only [heq1]
    by_cases hcond : 512 ≤ calc_index 2 a + 1 ∨ ve ≤ stopAt 21 ve a % U64
    · rw [if_pos hcond]
      have hM2M1 : stopAt 30 ve a = stopAt 21 ve a := by
        rw [calc_index_two] at hcond
        unfold stopAt pceil sEnd U64 at *
        omega
      have hle21 : stopAt 21 ve a ≤ sEnd 21 a := min_le_right _ _
      refine ⟨(t.ensure_populated (calc_index 2 a)).2.set (calc_index 2 a) c',
        calc_index 2 a, ?_, ?_, ?_⟩
      · rw [hM2M1]
      · intro v hv4 hva hvM
        rw [hM2M1] at hvM
        have hidx2 : calc_index 2 v = calc_index 2 a :=
          calc_index2_same a v hva (by omega)
        unfold PD.walk
        rw [hidx2]
        simp only [PD.set, Function.update_same, Option.map_some']
        exact congrArg some (hwalk1 v hv4 hva hvM)
      · intro i hi
        simp only [PD.set]
        rw [Function.update_noteq (by omega)]
        exact PD.ensure_pres_pd t _ i (by omega)
    · rw [if_neg hcond]
      push_neg at hcond
      obtain ⟨hc1, hc2⟩ := hcond
      have hidx2succ : calc_index 2 (sEnd 21 a) = calc_index 2 a + 1 :=
        calc_index2_succ a hc1
      have key : stopAt 21 ve a = sEnd 21 a ∧ sEnd 21 a < U64 := by
        rw [calc_index_two] at hc1
        unfold stopAt pceil sEnd U64 at *
        omega
      have hM1U : stopAt 21 ve a % U64 = sEnd 21 a := by
        rw [key.1]
        exact Nat.mod_eq_of_lt key.2
      have haligned' : sEnd 21 a % 4096 = 0 := by
        unfold sEnd
        omega
      have hlt' : sEnd 21 a < ve := by
        rw [hM1U] at hc2
        exact hc2
      have hge' : a + 4096 ≤ sEnd 21 a := by
        unfold sEnd at *
        omega
      obtain ⟨t₃, r, heq3, hwalk3, hpres3⟩ :=
        ih (sEnd 21 a) ((t.ensure_populated (calc_index 2 a)).2.set (calc_index 2 a) c')
          haligned' hlt' (by omega)
      have hstop30 : stopAt 30 ve (sEnd 21 a) = stopAt 30 ve a := by
        rw [calc_index_two] at hc1
        unfold stopAt pceil sEnd U64 at *
        omega
      refine ⟨t₃, r, ?_, ?_, ?_⟩
      · rw [hM1U, heq3, hstop30]
      · intro v hv4 hva hvM
        by_cases hvc : sEnd 21 a ≤ v
        · exact hwalk3 v hv4 hvc (by rw [hstop30]; exact hvM)
        · have hvM1 : v < stopAt 21 ve a := by
            rw [key.1]
            omega
          have hidx2v : calc_index 2 v = calc_index 2 a :=
            calc_index2_same a v hva (by omega)
          unfold PD.walk
          rw [hidx2v]
          rw [hpres3 (calc_index 2 a) (by rw [hidx2succ]; omega)]
          simp only [PD.set, Function.update_same, Option.map_some']
          exact congrArg some (hwalk1 v hv4 hva hvM1)
      · intro i hi
        rw [hpres3 i (by rw [hidx2succ]; omega)]
        simp only [PD.set]
        rw [Function.update_noteq (by omega)]
        exact PD.ensure_pres_pd t _ i (by omega)

/-- Specification of the level-3 mapping loop, analogous to the level-2
one with 1 GiB child slots inside the current 512 GiB slot. -/
theorem mapLoop3_spec (vs ve phys : Nat) (attr : PageAttr)
    (hvs : vs % 4096 = 0) (hph : phys % 4096 = 0) (hveU : ve ≤ U64) :
    ∀ fuel a (t : PDPT), a % 4096 = 0 → a < ve → ve - a + 2 ≤ fuel →
    ∃ t' r, mapLoop3 t a vs ve phys attr fuel = .ok (t', stopAt 39 ve a % U64, r) ∧
      (∀ v, v % 4096 = 0 → a ≤ v → v < stopAt 39 ve a →
        t'.walk v = some (leafVal vs phys attr v)) ∧
      (∀ i, i < calc_index 3 a → t'.entry i = t.entry i) := by
  intro fuel
  induction fuel with
  | zero =>
    intro a t _ h1 h2
    omega
  | succ fuel ih =>
    intro a t ha hav hfuel
    have haU : a < U64 := by
      unfold U64 at *
      omega
    obtain ⟨c', r1, heq1, hwalk1, _⟩ :=
      mapLoop2_spec vs ve phys attr hvs hph hveU fuel a
        ((t.ensure_populated (calc_index 3 a)).1) ha hav (by omega)
    rw [mapLoop3]
    simp only [heq1]
    by_cases hcond : 512 ≤ calc_index 3 a + 1 ∨ ve ≤ stopAt 30 ve a % U64
    · rw [if_pos hcond]
      have hM3M2 : stopAt 39 ve a = stopAt 30 ve a := by
        rw [calc_index_three] at hcond
        unfold stopAt pceil sEnd U64 at *
        omega
      have hle30 : stopAt 30 ve a ≤ sEnd 30 a := min_le_right _ _
      refine ⟨(t.ensure_populated (calc_index 3 a)).2.set (calc_index 3 a) c',
        calc_index 3 a, ?_, ?_, ?_⟩
      · rw [hM3M2]
      · intro v hv4 hva hvM
        rw [hM3M2] at hvM
        have hidx3 : calc_index 3 v = calc_index 3 a :=
          calc_index3_same a v hva (by omega)
        unfold PDPT.walk
        rw [hidx3]
        simp only [PDPT.set, Function.update_same]
        exact hwalk1 v hv4 hva hvM
      · intro i hi
        simp only [PDPT.set]
        rw [Function.update_noteq (by omega)]
        exact PDPT.ensure_pres_pdpt t _ i (by omega)
    · rw [if_neg hcond]
      push_neg at hcond
      obtain ⟨hc1, hc2⟩ := hcond
      have hidx3succ : calc_index 3 (sEnd 30 a) = calc_index 3 a + 1 :=
        calc_index3_succ a hc1
      have key : stopAt 30 ve a = sEnd 30 a ∧ sEnd 30 a < U64 := by
        rw [calc_index_three] at hc1
        unfold stopAt pceil sEnd U64 at *
        omega
      have hM2U : stopAt 30 ve a % U64 = sEnd 30 a := by
        rw [key.1]
        exact Nat.mod_eq_of_lt key.2
      have haligned' : sEnd 30 a % 4096 = 0 := by
        unfold sEnd
        omega
      have hlt' : sEnd 30 a < ve := by
        rw [hM2U] at hc2
        exact hc2
      have hge' : a + 4096 ≤ sEnd 30 a := by
        unfold sEnd at *
        omega
      obtain ⟨t₃, r, heq3, hwalk3, hpres3⟩ :=
        ih (sEnd 30 a) ((t.ensure_populated (calc_index 3 a)).2.set (calc_index 3 a) c')
          haligned' hlt' (by omega)
      have hstop39 : stopAt 39 ve (sEnd 30 a) = stopAt 39 ve a := by
        rw [calc_index_three] at hc1
        unfold stopAt pceil sEnd U64 at *
        omega
      refine ⟨t₃, r, ?_, ?_, ?_⟩
      · rw [hM2U, heq3, hstop39]
      · intro v hv4 hva hvM
        by_cases hvc : sEnd 30 a ≤ v
        · exact hwalk3 v hv4 hvc (by rw [hstop39]; exact hvM)
        · have hvM2 : v < stopAt 30 ve a := by
            rw [key.1]
            omega
          have hidx3v : calc_index 3 v = calc_index 3 a :=
            calc_index3_same a v hva (by omega)
          unfold PDPT.walk
          rw [hidx3v]
          rw [hpres3 (calc_index 3 a) (by rw [hidx3succ]; omega)]
          simp only [PDPT.set, Function.update_same]
          exact hwalk1 v hv4 hva hvM2
      · intro i hi
        rw [hpres3 i (by rw [hidx3succ]; omega)]
        simp only [PDPT.set]
        rw [Function.update_noteq (by omega)]
        exact PDPT.ensure_pres_pdpt t _ i (by omega)

/-- Specification of the outermost mapping loop, analogous to the inner
ones with 512 GiB child slots inside the 2 ^ 48 byte span of the level-4
table. -/
theorem mapLoop4_spec (vs ve phys : Nat) (attr : PageAttr)
    (hvs : vs % 4096 = 0) (hph : phys % 4096 = 0) (hveU : ve ≤ U64) :
    ∀ fuel a (t : PML4), a % 4096 = 0 → a < ve → ve - a + 3 ≤ fuel →
    ∃ t' r, mapLoop4 t a vs ve phys attr fuel = .ok (t', stopAt 48 ve a % U64, r) ∧
      (∀ v, v % 4096 = 0 → a ≤ v → v < stopAt 48 ve a →
        t'.walk v = some (leafVal vs phys attr v)) ∧
      (∀ i, i < calc_index 4 a → t'.entry i = t.entry i) := by
  intro fuel
  induction fuel with
  | zero =>
    intro a t _ h1 h2
    omega
  | succ fuel ih =>
    intro a t ha hav hfuel
    have haU : a < U64 := by
      unfold U64 at *
      omega
    obtain ⟨c', r1, heq1, hwalk1, _⟩ :=
      mapLoop3_spec vs ve phys attr hvs hph hveU fuel a
        ((t.ensure_populated (calc_index 4 a)).1) ha hav (by omega)
    rw [mapLoop4]
    simp only [heq1]
    by_cases hcond : 512 ≤ calc_index 4 a + 1 ∨ ve ≤ stopAt 39 ve a % U64
    · rw [if_pos hcond]
      have hM4M3 : stopAt 48 ve a = stopAt 39 ve a := by
        rw [calc_index_four] at hcond
        unfold stopAt pceil sEnd U64 at *
        omega
      have hle39 : stopAt 39 ve a ≤ sEnd 39 a := min_le_right _ _
      refine ⟨(t.ensure_populated (calc_index 4 a)).2.set (calc_index 4 a) c',
        calc_index 4 a, ?_, ?_, ?_⟩
      · rw [hM4M3]
      · intro v hv4 hva hvM
        rw [hM4M3] at hvM
        have hidx4 : calc_index 4 v = calc_index 4 a :=
          calc_index4_same a v hva (by omega)
        unfold PML4.walk
        rw [hidx4]
        simp only [PML4.set, Function.update_same]
        exact hwalk1 v hv4 hva hvM
      · intro i hi
        simp only [PML4.set]
        rw [Function.update_noteq (by omega)]
        exact PML4.ensure_pres_pml4 t _ i (by omega)
    · rw [if_neg hcond]
      push_neg at hcond
      obtain ⟨hc1, hc2⟩ := hcond
      have hidx4succ : calc_index 4 (sEnd 39 a) = calc_index 4 a + 1 :=
        calc_index4_succ a hc1
      have key : stopAt 39 ve a = sEnd 39 a ∧ sEnd 39 a < U64 := by
        rw [calc_index_four] at hc1
        unfold stopAt pceil sEnd U64 at *
        omega
      have hM3U : stopAt 39 ve a % U64 = sEnd 39 a := by
        rw [key.1]
        exact Nat.mod_eq_of_lt key.2
      have haligned' : sEnd 39 a % 4096 = 0 := by
        unfold sEnd
        omega
      have hlt' : sEnd 39 a < ve := by
        rw [hM3U] at hc2
        exact hc2
      have hge' : a + 4096 ≤ sEnd 39 a := by
        unfold sEnd at *
        omega
      obtain ⟨t₃, r, heq3, hwalk3, hpres3⟩ :=
        ih (sEnd 39 a) ((t.ensure_populated (calc_index 4 a)).2.set (calc_index 4 a) c')
          haligned' hlt' (by omega)
      have hstop48 : stopAt 48 ve (sEnd 39 a) = stopAt 48 ve a := by
        rw [calc_index_four] at hc1
        unfold stopAt pceil sEnd U64 at *
        omega
      refine ⟨t₃, r, ?_, ?_, ?_⟩
      · rw [hM3U, heq3, hstop48]
      · intro v hv4 hva hvM
        by_cases hvc : sEnd 39 a ≤ v
        · exact hwalk3 v hv4 hvc (by rw [hstop48]; exact hvM)
        · have hvM3 : v < stopAt 39 ve a := by
            rw [key.1]
            omega
          have hidx4v : calc_index 4 v = calc_index 4 a :=
            calc_index4_same a v hva (by omega)
          unfold PML4.walk
          rw [hidx4v]
          rw [hpres3 (calc_index 4 a) (by rw [hidx4succ]; omega)]
          simp only [PML4.set, Function.update_same]
          exact hwalk1 v hv4 hva hvM3
      · intro i hi
        rw [hpres3 i (by rw [hidx4succ]; omega)]
        simp only [PML4.set]
        rw [Function.update_noteq (by omega)]
        exact PML4.ensure_pres_pml4 t _ i (by omega)

/-- Claim C1 (amended): for every root table, 4096-aligned
virt_start < virt_end and 4096-aligned phys, provided the virtual range
does not cross a 2 ^ 48 boundary (virt_start and virt_end - 1 lie in the
same level-4 table span — otherwise the level-4 loop exits early and
returns success with the tail unmapped), create_mapping succeeds and the
four-level walk from every page-aligned v in [virt_start, virt_end)
reaches a leaf whose value is (phys + (v - virt_start)) | attr, the
physical target taken modulo 2 ^ 64. -/
theorem create_mapping_maps_range (t : PML4) (virt_start virt_end phys : Nat)
    (attr : PageAttr)
    (hvs4 : virt_start % 4096 = 0) (hph4 : phys % 4096 = 0)
    (hlt : virt_start < virt_end) (hveU : virt_end ≤ U64)
    (hsame : virt_start / 2 ^ 48 = (virt_end - 1) / 2 ^ 48) :
    ∃ t', PML4.create_mapping t virt_start virt_end phys attr = .ok t' ∧
      ∀ v, v % 4096 = 0 → virt_start ≤ v → v < virt_end →
        t'.walk v = some ((phys + (v - virt_start)) % U64 ||| attr.toNat) := by
  obtain ⟨t', r, heq, hwalk, _⟩ :=
    mapLoop4_spec virt_start virt_end phys attr hvs4 hph4 hveU (U64 + 4) virt_start t
      hvs4 hlt (by unfold U64 at *; omega)
  refine ⟨t', ?_, ?_⟩
  · rw [PML4.create_mapping, heq]
    rfl
  · intro v hv4 h1 h2
    have hvM : v < stopAt 48 virt_end virt_start := by
      unfold stopAt pceil sEnd U64 at *
      omega
    rw [hwalk v hv4 h1 hvM]
    congr 1
    unfold leafVal sub64 add64
    congr 1
    unfold U64 at *
    omega

/-- Witness for C1 at the spec's literal example: mapping
[0x1000, 0x3000) to 0xAAAA0000 with ReadWriteKernel; the walk of
0x2000 then yields 0xAAAA1003. -/
theorem create_mapping_maps_range_witness :
    (∃ t', PML4.create_mapping PML4.empty 0x1000 0x3000 0xAAAA0000
        PageAttr.ReadWriteKernel = .ok t' ∧
      ∀ v, v % 4096 = 0 → 0x1000 ≤ v → v < 0x3000 →
        t'.walk v = some ((0xAAAA0000 + (v - 0x1000)) % U64 |||
          PageAttr.ReadWriteKernel.toNat)) ∧
    (0xAAAA0000 + (0x2000 - 0x1000)) % U64 ||| PageAttr.ReadWriteKernel.toNat =
      0xAAAA1003 ∧
    (0x2000 : Nat) >>> 12 &&& 0x1FF = calc_index 1 0x2000 :=
  ⟨create_mapping_maps_range PML4.empty 0x1000 0x3000 0xAAAA0000
      PageAttr.ReadWriteKernel (by decide) (by decide) (by decide) (by decide)
      (by decide),
    by decide, by decide⟩

/-- Counterexample to C1 as stated: for the aligned range
[2 ^ 48 - 0x1000, 2 ^ 48 + 0x1000) the level-4 loop exhausts index 511
after the first page and breaks out with Ok, so create_mapping succeeds
but the walk from the in-range page-aligned address v = 2 ^ 48 reaches
no leaf at all. -/
theorem create_mapping_l4_boundary_cex :
    (∃ t', PML4.create_mapping PML4.empty 0xFFFFFFFFF000 0x1000000001000 0
        PageAttr.ReadWriteKernel = .ok t' ∧
      t'.walk 0x1000000000000 = none) ∧
    (0xFFFFFFFFF000 : Nat) % 4096 = 0 ∧ (0 : Nat) % 4096 = 0 ∧
    (0xFFFFFFFFF000 : Nat) < 0x1000000001000 ∧
    (0x1000000000000 : Nat) % 4096 = 0 ∧
    (0xFFFFFFFFF000 : Nat) ≤ 0x1000000000000 ∧
    (0x1000000000000 : Nat) < 0x1000000001000 := by
  refine ⟨?_, by decide, by decide, by decide, by decide, by decide, by decide⟩
  have hpa : sub64 (add64 0 0xFFFFFFFFF000) 0xFFFFFFFFF000 % 4096 = 0 := by decide
  have h1 : 512 ≤ calc_index 1 0xFFFFFFFFF000 + 1 ∨
      (0x1000000001000 : Nat) ≤ add64 0xFFFFFFFFF000 PAGE_SIZE := by
    left
    decide
  have h2 : 512 ≤ calc_index 2 0xFFFFFFFFF000 + 1 ∨
      (0x1000000001000 : Nat) ≤ add64 0xFFFFFFFFF000 PAGE_SIZE := by
    left
    decide
  have h3 : 512 ≤ calc_index 3 0xFFFFFFFFF000 + 1 ∨
      (0x1000000001000 : Nat) ≤ add64 0xFFFFFFFFF000 PAGE_SIZE := by
    left
    decide
  have h4 : 512 ≤ calc_index 4 0xFFFFFFFFF000 + 1 ∨
      (0x1000000001000 : Nat) ≤ add64 0xFFFFFFFFF000 PAGE_SIZE := by
    left
    decide
  have honce := mapLoop4_once PML4.empty 0xFFFFFFFFF000 0xFFFFFFFFF000
    0x1000000001000 0 PageAttr.ReadWriteKernel U64 hpa h1 h2 h3 h4
  refine ⟨_, by rw [PML4.create_mapping, honce]; rfl, ?_⟩
  decide

end Wasabi
